import Mathlib

/-!
Verification of the cpp-task-and-event repository: a shallow embedding of the
task DAG engine (Task.hpp), task extensions (TaskExtensions.hpp), coroutine
awaiter (TaskAwaiter.hpp), cancellation token (CancellationToken.hpp) and
event bus (EventBus.hpp / EventBus.cpp), with theorems settling the frozen
claims about them.
-/

namespace TaskEngine

/-- Exceptions are modelled as opaque numeric codes (std::exception_ptr payloads). -/
abbrev Exc := Nat

/-- The per-task mutable state of TaskBase plus the Task-specific result slot:
predecessor_count_, is_scheduled_, is_done_, exception_, result_, and a ghost
flag recording whether the user callable was invoked. -/
structure TaskState where
  predecessorCount : Int
  isScheduled : Bool
  isDone : Bool
  exception : Option Exc
  result : Option Nat
  callableRan : Bool
deriving DecidableEq, Repr

/-- A Task(void) callable: none models a null std::function; some none models a
callable that returns normally; some (some e) models a callable that throws e. -/
abbrev VoidCallable := Option (Option Exc)

/-- A Task(T) callable: none models a null std::function; some (Sum.inl v) returns
the value v; some (Sum.inr e) throws e. -/
abbrev ValCallable := Option (Sum Nat Exc)

/-- Task(void)::Execute: if an exception was inherited from a predecessor, skip the
callable and finish; otherwise run the callable (when non-null) inside the
catch-all guard, capturing a thrown exception, then mark done. -/
def executeVoid (c : VoidCallable) (s : TaskState) : TaskState :=
  if s.exception.isSome then { s with isDone := true }
  else
    match c with
    | none => { s with isDone := true }
    | some none => { s with isDone := true, callableRan := true }
    | some (some e) => { s with exception := some e, isDone := true, callableRan := true }

/-- Task(T)::Execute: as executeVoid, but a normally returning callable stores its
value into the result slot (result_ = callback_()). A null callable leaves the
result slot untouched. -/
def executeVal (c : ValCallable) (s : TaskState) : TaskState :=
  if s.exception.isSome then { s with isDone := true }
  else
    match c with
    | none => { s with isDone := true }
    | some (Sum.inl v) => { s with result := some v, isDone := true, callableRan := true }
    | some (Sum.inr e) => { s with exception := some e, isDone := true, callableRan := true }

/-- TaskBase::TrySchedule: if the predecessor count is zero and the scheduled flag
was not yet set, set it and enter Execute (here: apply the execute function). -/
def tryScheduleRun (exec : TaskState → TaskState) (s : TaskState) : TaskState :=
  if s.predecessorCount = 0 ∧ s.isScheduled = false then exec { s with isScheduled := true }
  else s

/-- TaskBase::OnPredecessorFinished: record the first non-null predecessor
exception (first-write-wins under exception_mutex_), decrement the predecessor
count, and when the count was 1 (fetch_sub returned 1) call TrySchedule. -/
def onPredecessorFinished (exec : TaskState → TaskState) (s : TaskState)
    (pexc : Option Exc) : TaskState :=
  let s1 := if pexc.isSome ∧ s.exception = none then { s with exception := pexc } else s
  let s2 := { s1 with predecessorCount := s1.predecessorCount - 1 }
  if s1.predecessorCount = 1 then tryScheduleRun exec s2 else s2

/-- Freshly constructed task after wiring n predecessor edges: predecessor count
n, not scheduled, not done, no exception, empty result slot, callable not run. -/
def initTask (n : Nat) : TaskState :=
  ⟨(n : Int), false, false, none, none, false⟩

/-- A task with the given predecessor arrivals, run to completion: every
predecessor delivers its OnPredecessorFinished payload in the given order (the
last arrival triggers Execute); a task with no predecessors is started by a
direct TrySchedule call. -/
def runTask (exec : TaskState → TaskState) (arrivals : List (Option Exc)) : TaskState :=
  match arrivals with
  | [] => tryScheduleRun exec (initTask 0)
  | _ => arrivals.foldl (onPredecessorFinished exec) (initTask arrivals.length)

/-- First-write-wins combination of an already recorded exception with a new one. -/
def firstOf (a b : Option Exc) : Option Exc :=
  match a with
  | some x => some x
  | none => b

/-- The payload Task::NotifySuccessors delivers along conditional edges:
the task's stored exception. -/
def condForward (s : TaskState) : Option Exc := s.exception

/-- Task(T)::GetResult: rethrow the stored exception if present, otherwise move
out of the (possibly empty) result slot. -/
def getResult (s : TaskState) : Except Exc (Option Nat) :=
  match s.exception with
  | some e => Except.error e
  | none => Except.ok s.result

lemma firstOf_assoc (a b c : Option Exc) :
    firstOf (firstOf a b) c = firstOf a (firstOf b c) := by
  cases a <;> cases b <;> rfl

lemma findSome_cons (a : Option Exc) (l : List (Option Exc)) :
    (a :: l).findSome? id = firstOf a (l.findSome? id) := by
  cases a <;> rfl

lemma foldl_onPred (exec : TaskState → TaskState) :
    ∀ (arrivals : List (Option Exc)) (e0 : Option Exc), arrivals ≠ [] →
      arrivals.foldl (onPredecessorFinished exec)
          ⟨(arrivals.length : Int), false, false, e0, none, false⟩
        = exec ⟨0, true, false, firstOf e0 (arrivals.findSome? id), none, false⟩ := by
  intro arrivals
  induction arrivals with
  | nil => intro e0 h; exact absurd rfl h
  | cons a rest ih =>
    intro e0 _
    have hrec : onPredecessorFinished exec
        ⟨((a :: rest).length : Int), false, false, e0, none, false⟩ a
        = if ((a :: rest).length : Int) = 1 then
            tryScheduleRun exec ⟨((a :: rest).length : Int) - 1, false, false, firstOf e0 a, none, false⟩
          else ⟨((a :: rest).length : Int) - 1, false, false, firstOf e0 a, none, false⟩ := by
      unfold onPredecessorFinished
      cases a <;> cases e0 <;> simp [firstOf]
    cases rest with
    | nil =>
      simp only [List.foldl_cons, List.foldl_nil, hrec]
      norm_num
      unfold tryScheduleRun
      norm_num
      rw [findSome_cons]
      cases a <;> cases e0 <;> simp [firstOf, List.findSome?]
    | cons b t =>
      have hlen : ((a :: b :: t).length : Int) ≠ 1 := by
        simp [List.length]
        omega
      have hlen2 : ((a :: b :: t).length : Int) - 1 = ((b :: t).length : Int) := by
        simp [List.length]
      simp only [List.foldl_cons] at *
      rw [hrec]
      rw [if_neg hlen, hlen2]
      have := ih (firstOf e0 a) (by simp)
      simp only [List.foldl_cons] at this
      rw [this, findSome_cons a (b :: t), findSome_cons b t, firstOf_assoc]

/-- The final state of any task: after all predecessor arrivals (or a direct
TrySchedule when it has none), Execute runs on a state whose exception is the
first non-null arrival. -/
lemma runTask_eq (exec : TaskState → TaskState) (arrivals : List (Option Exc)) :
    runTask exec arrivals = exec ⟨0, true, false, arrivals.findSome? id, none, false⟩ := by
  cases arrivals with
  | nil =>
    unfold runTask tryScheduleRun initTask
    simp
  | cons a rest =>
    unfold runTask
    have := foldl_onPred exec (a :: rest) none (by simp)
    simpa [initTask, firstOf] using this

lemma findSome_isSome {l : List (Option Exc)} {e : Exc} (h : some e ∈ l) :
    (l.findSome? id).isSome := by
  induction l with
  | nil => cases h
  | cons a t ih =>
    cases a with
    | some x => simp [List.findSome?]
    | none =>
      simp [List.findSome?]
      rcases List.mem_cons.mp h with h1 | h2
      · exact absurd h1 (by simp)
      · simpa using ih h2

/-- The successor lists of a task: successors_unconditional_ (Finally) and
successors_conditional_ (Then); entries are successor task ids. -/
structure Succs where
  uncond : List Nat
  cond : List Nat
deriving DecidableEq, Repr

/-- Task::Then(next): appends next to successors_conditional_. -/
def thenWire (s : Succs) (next : Nat) : Succs :=
  { s with cond := s.cond ++ [next] }

/-- Task::Finally(next): appends next to successors_unconditional_. -/
def finallyWire (s : Succs) (next : Nat) : Succs :=
  { s with uncond := s.uncond ++ [next] }

/-- The no-op callable WhenAll constructs for its aggregate task. -/
def noopVoid : VoidCallable := some none

/-- WhenAll wires the aggregate into each input: task->Then(aggregate_task). -/
def whenAllWireInput (s : Succs) (aggId : Nat) : Succs := thenWire s aggId

/-- The aggregate task of WhenAll(pool, tasks) for a non-empty input list, run to
completion with a synchronous pool: each input finishes in the given order, its
final stored exception (none when its callable returned, some e when it threw e)
delivered to the aggregate by NotifySuccessors along the Then edge. -/
def whenAllAggregate (outcomes : List (Option Exc)) : TaskState :=
  runTask (executeVoid noopVoid) outcomes

/-- The callable of the resumption task the awaiter creates: it invokes
awaiting_coro.resume() and does not throw. -/
def resumeCallable : VoidCallable := some none

/-- The successor wiring performed by TaskAwaiter::await_suspend on the awaited
task: task->Then(resumption), with the resumption task given id 1. -/
def awaiterWire : Succs := thenWire ⟨[], []⟩ 1

/-- TaskAwaiter::await_suspend, run with a synchronous pool. The resumption task
starts with predecessor count 1 (from Then). When the awaited task is already
done, OnPredecessorFinished is invoked on the resumption directly with the
default null exception; otherwise TrySchedule runs the awaited task, which
finishes with stored exception tExc and notifies the resumption along the Then
edge with that exception. The returned state is the resumption task's. -/
def awaitSuspend (tIsDone : Bool) (tExc : Option Exc) : TaskState :=
  let resumption := initTask 1
  if tIsDone then
    onPredecessorFinished (executeVoid resumeCallable) resumption none
  else
    onPredecessorFinished (executeVoid resumeCallable) resumption tExc

end TaskEngine

namespace TaskEngine

/-- Claim C3: a task with at least one failed conditional predecessor does not
execute its callable, still reaches done, stores the first non-null exception
delivered by its predecessors in arrival order (first-write-wins), and forwards
that stored exception to its own conditional successors. -/
theorem C3_short_circuit (c : ValCallable) (arrivals : List (Option Exc)) (e : Exc)
    (h : some e ∈ arrivals) :
    (runTask (executeVal c) arrivals).callableRan = false ∧
    (runTask (executeVal c) arrivals).isDone = true ∧
    (runTask (executeVal c) arrivals).exception = arrivals.findSome? id ∧
    condForward (runTask (executeVal c) arrivals) = arrivals.findSome? id := by
  have hs := findSome_isSome h
  rw [runTask_eq]
  unfold executeVal condForward
  simp only [hs]
  simp

/-- Witness for C3 at a concrete task: callable returning 3, predecessors
delivering none, 5, 7 in that order. -/
theorem C3_short_circuit_witness :
    (some 5 ∈ [none, some 5, some 7]) ∧
    (runTask (executeVal (some (Sum.inl 3))) [none, some 5, some 7]).callableRan = false ∧
    (runTask (executeVal (some (Sum.inl 3))) [none, some 5, some 7]).isDone = true ∧
    (runTask (executeVal (some (Sum.inl 3))) [none, some 5, some 7]).exception = some 5 ∧
    condForward (runTask (executeVal (some (Sum.inl 3))) [none, some 5, some 7]) = some 5 := by
  have h := C3_short_circuit (some (Sum.inl 3)) [none, some 5, some 7] 5 (by decide)
  exact ⟨by decide, h.1, h.2.1, h.2.2.1, h.2.2.2⟩

/-- A Task(T) constructed with a null callable and no predecessors, scheduled
directly. -/
def nullValTask : TaskState := runTask (executeVal none) []

/-- Counterexample to claim C9 as stated: for a Task(T) with a null callable, the
task is done with no stored exception and yet the result slot is empty, so the
claimed equivalence fails. -/
theorem C9_counterexample :
    nullValTask.isDone = true ∧ nullValTask.exception = none ∧
    ¬ (nullValTask.result.isSome = true ↔
        (nullValTask.isDone = true ∧ nullValTask.exception = none)) := by
  decide

/-- Claim C9 (amended): for a Task(T) with a non-null callable, the result slot
holds a value iff the task is done with no stored exception, and GetResult on a
done exception-free task returns the stored value. -/
theorem C9_result_slot (out : Sum Nat Exc) (arrivals : List (Option Exc)) :
    ((runTask (executeVal (some out)) arrivals).result.isSome = true ↔
      ((runTask (executeVal (some out)) arrivals).isDone = true ∧
       (runTask (executeVal (some out)) arrivals).exception = none)) ∧
    ((runTask (executeVal (some out)) arrivals).exception = none →
      ∃ v, (runTask (executeVal (some out)) arrivals).result = some v ∧
        getResult (runTask (executeVal (some out)) arrivals) = Except.ok (some v)) := by
  rw [runTask_eq]
  unfold executeVal
  cases hfs : arrivals.findSome? id with
  | some e =>
    simp only [Option.isSome_some, if_pos]
    simp [getResult]
  | none =>
    cases out with
    | inl v => simp [getResult]
    | inr e => simp [getResult]

/-- Witness for C9 (amended) at a concrete task: callable returning 42, one
successful predecessor. -/
theorem C9_result_slot_witness :
    ((runTask (executeVal (some (Sum.inl 42))) [none]).result.isSome = true ↔
      ((runTask (executeVal (some (Sum.inl 42))) [none]).isDone = true ∧
       (runTask (executeVal (some (Sum.inl 42))) [none]).exception = none)) ∧
    ((runTask (executeVal (some (Sum.inl 42))) [none]).exception = none →
      ∃ v, (runTask (executeVal (some (Sum.inl 42))) [none]).result = some v ∧
        getResult (runTask (executeVal (some (Sum.inl 42))) [none]) = Except.ok (some v)) :=
  C9_result_slot (Sum.inl 42) [none]

/-- Counterexample to claim C1 as stated: WhenAll wires each input to the
aggregate with Then, which appends to the conditional successor list and leaves
the unconditional list empty, and for the one-element input list whose task
throws exception 3 the aggregate finishes with stored exception 3, not with no
stored exception. -/
theorem C1_counterexample :
    (whenAllWireInput ⟨[], []⟩ 0).uncond = [] ∧
    (whenAllWireInput ⟨[], []⟩ 0).cond = [0] ∧
    (whenAllAggregate [some 3]).isDone = true ∧
    (whenAllAggregate [some 3]).exception = some 3 ∧
    (whenAllAggregate [some 3]).callableRan = false := by
  decide

/-- Claim C1 (amended): for every non-empty input list, WhenAll wires the
aggregate as a conditional (Then) successor of each input, the aggregate's
callable is a no-op, the aggregate reaches done once every input is done, its
stored exception is the first non-null input exception in delivery order (none
when all inputs succeed), and the no-op callable runs iff no input failed. -/
theorem C1_whenAll (outcomes : List (Option Exc)) (s : Succs) (aggId : Nat)
    (_hne : outcomes ≠ []) :
    (whenAllWireInput s aggId).cond = s.cond ++ [aggId] ∧
    (whenAllWireInput s aggId).uncond = s.uncond ∧
    (whenAllAggregate outcomes).isDone = true ∧
    (whenAllAggregate outcomes).exception = outcomes.findSome? id ∧
    ((whenAllAggregate outcomes).callableRan = true ↔ outcomes.findSome? id = none) := by
  refine ⟨rfl, rfl, ?_⟩
  unfold whenAllAggregate
  rw [runTask_eq]
  unfold executeVoid noopVoid
  cases hfs : outcomes.findSome? id with
  | some e => simp
  | none => simp

/-- Witness for C1 (amended) at a concrete input: two inputs, the first throwing
exception 9, the second succeeding. -/
theorem C1_whenAll_witness :
    ([some 9, none] ≠ ([] : List (Option Exc))) ∧
    (whenAllWireInput ⟨[], []⟩ 7).cond = [7] ∧
    (whenAllWireInput ⟨[], []⟩ 7).uncond = [] ∧
    (whenAllAggregate [some 9, none]).isDone = true ∧
    (whenAllAggregate [some 9, none]).exception = some 9 ∧
    ((whenAllAggregate [some 9, none]).callableRan = true ↔
      ([some 9, none] : List (Option Exc)).findSome? id = none) := by
  have h := C1_whenAll [some 9, none] ⟨[], []⟩ 7 (by decide)
  exact ⟨by decide, h.1, h.2.1, h.2.2.1, h.2.2.2.1, h.2.2.2.2⟩

/-- Counterexample to claim C2 as stated: await_suspend wires the resumption via
Then, i.e. into the conditional successor list (the unconditional list stays
empty), and when the awaited task is not yet done and later completes with a
stored exception, the resume callable does not run: the resumption inherits the
exception and its Execute short-circuits, so the coroutine is never resumed. -/
theorem C2_counterexample :
    awaiterWire.uncond = [] ∧ awaiterWire.cond = [1] ∧
    (awaitSuspend false (some 0)).isDone = true ∧
    (awaitSuspend false (some 0)).exception = some 0 ∧
    (awaitSuspend false (some 0)).callableRan = false := by
  decide

/-- Claim C2 (amended): await_suspend creates one resumption task per await and
wires it as a conditional (Then) successor of the awaited task; the resumption
always reaches done after the awaited task, and its resume callable runs iff the
awaited task was already done at suspension (in which case a null exception is
delivered) or completed afterwards without a stored exception; when the awaited
task fails after suspension, its exception is forwarded to the resumption and
the resume callable is skipped. -/
theorem C2_awaiter (tIsDone : Bool) (tExc : Option Exc) :
    awaiterWire.cond = [1] ∧ awaiterWire.uncond = [] ∧
    (awaitSuspend tIsDone tExc).isDone = true ∧
    ((awaitSuspend tIsDone tExc).callableRan = (tIsDone || tExc.isNone)) ∧
    ((awaitSuspend tIsDone tExc).exception = if tIsDone then none else tExc) := by
  refine ⟨rfl, rfl, ?_⟩
  cases tIsDone <;> cases tExc <;>
    simp [awaitSuspend, onPredecessorFinished, tryScheduleRun, executeVoid,
      resumeCallable, initTask]

/-- TaskBase::TrySchedule, instrumented: the returned Bool reports whether the
Execute body was entered (the scheduled flag made its false-to-true exchange). -/
def trySchedule2 (exec : TaskState → TaskState) (s : TaskState) : TaskState × Bool :=
  if s.predecessorCount = 0 ∧ s.isScheduled = false then (exec { s with isScheduled := true }, true)
  else (s, false)

/-- TaskBase::OnPredecessorFinished, instrumented like trySchedule2. -/
def onPred2 (exec : TaskState → TaskState) (s : TaskState) (pexc : Option Exc) :
    TaskState × Bool :=
  let s1 := if pexc.isSome ∧ s.exception = none then { s with exception := pexc } else s
  let s2 := { s1 with predecessorCount := s1.predecessorCount - 1 }
  if s1.predecessorCount = 1 then trySchedule2 exec s2 else (s2, false)

/-- An operation racing on one task: a TrySchedule call or an
OnPredecessorFinished call delivering the given predecessor exception. -/
inductive TaskOp where
  | tryS : TaskOp
  | onPred : Option Exc → TaskOp
deriving DecidableEq, Repr

/-- One step of an interleaving. -/
def stepOp (exec : TaskState → TaskState) (s : TaskState) (op : TaskOp) : TaskState × Bool :=
  match op with
  | TaskOp.tryS => trySchedule2 exec s
  | TaskOp.onPred e => onPred2 exec s e

/-- Run an interleaving of TrySchedule and OnPredecessorFinished calls, counting
how many times the Execute body was entered. -/
def runOps (exec : TaskState → TaskState) : TaskState → List TaskOp → TaskState × Nat
  | s, [] => (s, 0)
  | s, op :: rest =>
    ((runOps exec (stepOp exec s op).1 rest).1,
      (if (stepOp exec s op).2 then 1 else 0) + (runOps exec (stepOp exec s op).1 rest).2)

lemma executeVoid_isScheduled (c : VoidCallable) (s : TaskState) :
    (executeVoid c s).isScheduled = s.isScheduled := by
  unfold executeVoid
  cases h : s.exception.isSome with
  | true => simp [h]
  | false =>
    cases c with
    | none => simp [h]
    | some o => cases o <;> simp [h]

lemma trySchedule2_sched_spec (c : VoidCallable) (s : TaskState) :
    ((trySchedule2 (executeVoid c) s).2 = true →
      (trySchedule2 (executeVoid c) s).1.isScheduled = true) ∧
    ((trySchedule2 (executeVoid c) s).2 = false →
      (trySchedule2 (executeVoid c) s).1.isScheduled = s.isScheduled) := by
  unfold trySchedule2
  by_cases h1 : s.predecessorCount = 0 ∧ s.isScheduled = false
  · simp [h1, executeVoid_isScheduled]
  · simp [h1]

lemma stepOp_sched_spec (c : VoidCallable) (s : TaskState) (op : TaskOp) :
    ((stepOp (executeVoid c) s op).2 = true →
      (stepOp (executeVoid c) s op).1.isScheduled = true) ∧
    ((stepOp (executeVoid c) s op).2 = false →
      (stepOp (executeVoid c) s op).1.isScheduled = s.isScheduled) := by
  cases op with
  | tryS => exact trySchedule2_sched_spec c s
  | onPred e =>
    simp only [stepOp, onPred2]
    by_cases h1 : e.isSome = true ∧ s.exception = none
    · by_cases h3 : s.predecessorCount = 1
      · simp only [if_pos h1, if_pos h3]
        exact trySchedule2_sched_spec c _
      · simp only [if_pos h1, if_neg h3]
        simp
    · by_cases h3 : s.predecessorCount = 1
      · simp only [if_neg h1, if_pos h3]
        exact trySchedule2_sched_spec c _
      · simp only [if_neg h1, if_neg h3]
        simp

lemma stepOp_scheduled (c : VoidCallable) (s : TaskState) (op : TaskOp)
    (h : s.isScheduled = true) :
    (stepOp (executeVoid c) s op).1.isScheduled = true ∧
    (stepOp (executeVoid c) s op).2 = false := by
  have hspec := stepOp_sched_spec c s op
  cases h2 : (stepOp (executeVoid c) s op).2 with
  | true =>
    exfalso
    have : (stepOp (executeVoid c) s op).2 = true := h2
    cases op with
    | tryS =>
      unfold stepOp trySchedule2 at this
      by_cases h1 : s.predecessorCount = 0 ∧ s.isScheduled = false
      · exact absurd h1.2 (by simp [h])
      · simp [h1] at this
    | onPred e =>
      unfold stepOp onPred2 trySchedule2 at this
      by_cases h1 : e.isSome ∧ s.exception = none <;>
        by_cases h3 : s.predecessorCount = 1 <;>
          simp [h1, h3, h] at this
  | false => exact ⟨(hspec.2 h2).trans h, rfl⟩

lemma runOps_scheduled (c : VoidCallable) :
    ∀ (ops : List TaskOp) (s : TaskState), s.isScheduled = true →
      (runOps (executeVoid c) s ops).2 = 0 := by
  intro ops
  induction ops with
  | nil => intro s _; rfl
  | cons op rest ih =>
    intro s h
    have h1 := stepOp_scheduled c s op h
    unfold runOps
    simp only [h1.2, if_false, Bool.false_eq_true]
    rw [ih _ h1.1]

/-- Claim C5: for every task callable, every starting state whose scheduled flag
is still false, and every interleaving of TrySchedule and OnPredecessorFinished
calls, the Execute body is entered at most once, i.e. the scheduled flag makes
its false-to-true transition at most once and the callable executes at most
once. -/
theorem C5_schedule_once (c : VoidCallable) (ops : List TaskOp) (s : TaskState)
    (h : s.isScheduled = false) :
    (runOps (executeVoid c) s ops).2 ≤ 1 := by
  induction ops generalizing s with
  | nil => simp [runOps]
  | cons op rest ih =>
    unfold runOps
    cases h2 : (stepOp (executeVoid c) s op).2 with
    | false =>
      have hs := ((stepOp_sched_spec c s op).2 h2).trans h
      have := ih _ hs
      simpa [h2] using this
    | true =>
      have := runOps_scheduled c rest _ ((stepOp_sched_spec c s op).1 h2)
      simp [h2, this]

/-- Witness for C5 at a concrete interleaving: a task with one predecessor,
racing one OnPredecessorFinished delivery against two direct TrySchedule calls. -/
theorem C5_schedule_once_witness :
    (initTask 1).isScheduled = false ∧
    (runOps (executeVoid (some none)) (initTask 1)
      [TaskOp.tryS, TaskOp.onPred none, TaskOp.tryS]).2 ≤ 1 :=
  ⟨rfl, C5_schedule_once (some none) [TaskOp.tryS, TaskOp.onPred none, TaskOp.tryS]
    (initTask 1) rfl⟩

end TaskEngine

namespace EventSystem

/-- A C++ exception as it matters to EventBus::Emit's guard, which is written
catch (const std::exception&): it is either derived from std::exception or not
(e.g. a thrown int or a non-std type). -/
inductive CppExc where
  | stdExc : Nat → CppExc
  | nonStd : Nat → CppExc
deriving DecidableEq, Repr

/-- What one snapshotted handler does when invoked: none means it returns
normally, some x means it throws x. -/
abbrev HandlerThrow := Option CppExc

/-- The dispatch loop of EventBus::Emit over the handler snapshot: each handler
is invoked inside try { handler(&event); } catch (const std::exception&) {}.
Returns the number of handlers actually invoked and the exception, if any, that
escapes Emit to its caller. A thrown std::exception is swallowed and the loop
continues; an exception not derived from std::exception is not caught, so it
aborts the loop and propagates out of Emit. -/
def emitRun : List HandlerThrow → Nat × Option CppExc
  | [] => (0, none)
  | h :: rest =>
    match h with
    | some (CppExc.nonStd c) => (1, some (CppExc.nonStd c))
    | some (CppExc.stdExc _) => ((emitRun rest).1 + 1, (emitRun rest).2)
    | none => ((emitRun rest).1 + 1, (emitRun rest).2)

/-- Counterexample to claim C4 as stated: with a snapshot of two handlers whose
first throws an exception not derived from std::exception, the second handler is
never invoked and Emit propagates the failure to its caller. -/
theorem C4_counterexample :
    (emitRun [some (CppExc.nonStd 0), none]).1 = 1 ∧
    (emitRun [some (CppExc.nonStd 0), none]).2 = some (CppExc.nonStd 0) := by
  decide

/-- Whether a handler outcome is a throw of an exception NOT derived from
std::exception (the only thing catch (const std::exception&) misses). -/
def isNonStdThrow : HandlerThrow → Bool
  | some (CppExc.nonStd _) => true
  | _ => false

/-- Claim C4 (amended): Emit's per-handler guard catches exactly the exceptions
derived from std::exception; whenever every exception thrown by a handler is
std::exception-derived (in particular when no handler throws), every snapshotted
handler is invoked and Emit propagates nothing to its caller; an exception not
derived from std::exception escapes Emit and skips the remaining handlers. -/
theorem C4_emit_guard (hs : List HandlerThrow)
    (h : ∀ e ∈ hs, isNonStdThrow e = false) :
    (emitRun hs).1 = hs.length ∧ (emitRun hs).2 = none := by
  induction hs with
  | nil => exact ⟨rfl, rfl⟩
  | cons a rest ih =>
    have hrest := ih (fun e he => h e (List.mem_cons_of_mem a he))
    cases a with
    | none => simp [emitRun, hrest.1, hrest.2]
    | some x =>
      cases x with
      | stdExc c => simp [emitRun, hrest.1, hrest.2]
      | nonStd c =>
        have := h (some (CppExc.nonStd c)) (List.mem_cons_self _ _)
        simp [isNonStdThrow] at this

/-- Witness for C4 (amended): three handlers, the second throwing a
std::exception-derived exception; all three are invoked and Emit returns
normally. -/
theorem C4_emit_guard_witness :
    (∀ e ∈ [none, some (CppExc.stdExc 4), none], isNonStdThrow e = false) ∧
    (emitRun [none, some (CppExc.stdExc 4), none]).1 = 3 ∧
    (emitRun [none, some (CppExc.stdExc 4), none]).2 = none := by
  have h := C4_emit_guard [none, some (CppExc.stdExc 4), none] (by decide)
  exact ⟨by decide, h.1, h.2⟩

end EventSystem

namespace Cancellation

/-- CancellationToken state: the is_cancelled_ latch and the registered callback
list (callbacks modelled by numeric ids, in registration order). -/
structure TokenState where
  cancelled : Bool
  callbacks : List Nat
deriving DecidableEq, Repr

/-- CancellationToken::Cancel: on the false-to-true exchange, invoke every
registered callback in registration order and clear the list; when already
latched, return without invoking anything. The second component is the list of
callbacks invoked by this call, in invocation order. -/
def cancel (s : TokenState) : TokenState × List Nat :=
  if s.cancelled then (s, [])
  else (⟨true, []⟩, s.callbacks)

/-- CancellationToken::RegisterCallback: invoke the callback inline when already
cancelled, otherwise append it to the list. Second component as in cancel. -/
def registerCallback (s : TokenState) (cb : Nat) : TokenState × List Nat :=
  if s.cancelled then (s, [cb])
  else (⟨false, s.callbacks ++ [cb]⟩, [])

/-- n repeated Cancel calls; second component concatenates the callbacks invoked
by each call in order. -/
def cancels (s : TokenState) : Nat → TokenState × List Nat
  | 0 => (s, [])
  | n + 1 =>
    ((cancels (cancel s).1 n).1, (cancel s).2 ++ (cancels (cancel s).1 n).2)

lemma cancels_latched : ∀ (n : Nat) (l : List Nat),
    cancels ⟨true, l⟩ n = (⟨true, l⟩, []) := by
  intro n
  induction n with
  | zero => intro l; rfl
  | succ m ih =>
    intro l
    simp [cancels, cancel, ih]

/-- Claim C6: Cancel is idempotent. From a not-yet-cancelled token, across any
number of Cancel calls exactly the first performs the false-to-true latch; that
call invokes each callback registered before cancellation exactly once, in
registration order, and clears the list; every subsequent Cancel returns without
invoking any callback, and the total callbacks invoked across all calls are
exactly the registered ones, once each, in order. -/
theorem C6_cancel_idempotent (s : TokenState) (n : Nat) (h : s.cancelled = false) :
    (cancel s).2 = s.callbacks ∧
    (cancel s).1 = ⟨true, []⟩ ∧
    (cancels (cancel s).1 n).2 = [] ∧
    (cancels s (n + 1)).2 = s.callbacks := by
  have hc : cancel s = (⟨true, []⟩, s.callbacks) := by
    unfold cancel
    simp [h]
  refine ⟨by rw [hc], by rw [hc], ?_, ?_⟩
  · rw [hc]
    simp [cancels_latched]
  · show (cancel s).2 ++ (cancels (cancel s).1 n).2 = s.callbacks
    rw [hc]
    simp [cancels_latched]

/-- Witness for C6: a token with three registered callbacks and three Cancel
calls in total. -/
theorem C6_cancel_idempotent_witness :
    (cancel ⟨false, [1, 2, 3]⟩).2 = [1, 2, 3] ∧
    (cancel ⟨false, [1, 2, 3]⟩).1 = ⟨true, []⟩ ∧
    (cancels (cancel ⟨false, [1, 2, 3]⟩).1 2).2 = [] ∧
    (cancels ⟨false, [1, 2, 3]⟩ 3).2 = [1, 2, 3] :=
  C6_cancel_idempotent ⟨false, [1, 2, 3]⟩ 2 rfl

end Cancellation

namespace EventSystem

/-! Association lists with Nat keys model the std::unordered_map registries of
EventBus: lookupA is find, insertA is operator[] assignment (replace in place
when the key exists, append otherwise), eraseA is erase. -/

def lookupA {α : Type} (k : Nat) : List (Nat × α) → Option α
  | [] => none
  | (k', v) :: t => if k = k' then some v else lookupA k t

def insertA {α : Type} (k : Nat) (v : α) : List (Nat × α) → List (Nat × α)
  | [] => [(k, v)]
  | (k', v') :: t => if k = k' then (k, v) :: t else (k', v') :: insertA k v t

def eraseA {α : Type} (k : Nat) : List (Nat × α) → List (Nat × α)
  | [] => []
  | (k', v') :: t => if k = k' then t else (k', v') :: eraseA k t

def keysA {α : Type} (m : List (Nat × α)) : List Nat := m.map Prod.fst

lemma lookupA_insertA_self {α : Type} (k : Nat) (v : α) (m : List (Nat × α)) :
    lookupA k (insertA k v m) = some v := by
  induction m with
  | nil => simp [insertA, lookupA]
  | cons p t ih =>
    by_cases h : k = p.1
    · simp [insertA, lookupA, h]
    · simp [insertA, lookupA, h, ih]

lemma lookupA_insertA_other {α : Type} {k k' : Nat} (v : α) (m : List (Nat × α))
    (h : k' ≠ k) : lookupA k' (insertA k v m) = lookupA k' m := by
  induction m with
  | nil => simp [insertA, lookupA, h]
  | cons p t ih =>
    by_cases h2 : k = p.1
    · subst h2
      simp [insertA, lookupA, h]
    · by_cases h3 : k' = p.1 <;> simp [insertA, lookupA, h2, h3, ih]

lemma lookupA_eraseA_other {α : Type} {k k' : Nat} (m : List (Nat × α))
    (h : k' ≠ k) : lookupA k' (eraseA k m) = lookupA k' m := by
  induction m with
  | nil => simp [eraseA]
  | cons p t ih =>
    by_cases h2 : k = p.1
    · subst h2
      simp [eraseA, lookupA, h]
    · by_cases h3 : k' = p.1 <;> simp [eraseA, lookupA, h2, h3, ih]

lemma mem_keysA_iff {α : Type} {k : Nat} {m : List (Nat × α)} :
    k ∈ keysA m ↔ ∃ v, (k, v) ∈ m := by
  unfold keysA
  constructor
  · intro h
    rcases List.mem_map.mp h with ⟨p, hp, he⟩
    rcases p with ⟨k1, v1⟩
    simp only at he
    subst he
    exact ⟨v1, hp⟩
  · rintro ⟨v, hv⟩
    exact List.mem_map.mpr ⟨(k, v), hv, rfl⟩

lemma lookupA_of_not_mem {α : Type} {k : Nat} {m : List (Nat × α)}
    (h : k ∉ keysA m) : lookupA k m = none := by
  induction m with
  | nil => rfl
  | cons p t ih =>
    have h1 : k ≠ p.1 := fun he => h (by simp [keysA, he])
    have h2 : k ∉ keysA t := fun hm => h (by
      rcases mem_keysA_iff.mp hm with ⟨w, hw⟩
      exact mem_keysA_iff.mpr ⟨w, by simp [hw]⟩)
    simp [lookupA, h1, ih h2]

lemma lookupA_eraseA_self {α : Type} {k : Nat} {m : List (Nat × α)}
    (h : (keysA m).Nodup) : lookupA k (eraseA k m) = none := by
  induction m with
  | nil => rfl
  | cons p t ih =>
    have hnd : (keysA t).Nodup := (List.nodup_cons.mp h).2
    have hnm : p.1 ∉ keysA t := (List.nodup_cons.mp h).1
    by_cases h2 : k = p.1
    · subst h2
      simp only [eraseA, if_pos rfl]
      exact lookupA_of_not_mem hnm
    · simp only [eraseA, if_neg h2, lookupA]
      exact ih hnd

lemma insertA_of_lookup {α : Type} {k : Nat} {v : α} {m : List (Nat × α)}
    (h : lookupA k m = some v) : insertA k v m = m := by
  induction m with
  | nil => simp [lookupA] at h
  | cons p t ih =>
    unfold lookupA at h
    by_cases h2 : k = p.1
    · rw [if_pos h2] at h
      cases p with
      | mk k1 v1 =>
        simp only at h2
        subst h2
        simp only [Option.some.injEq] at h
        subst h
        simp [insertA]
    · rw [if_neg h2] at h
      simp [insertA, h2, ih h]

lemma insertA_insertA {α : Type} (k : Nat) (v w : α) (m : List (Nat × α)) :
    insertA k v (insertA k w m) = insertA k v m := by
  induction m with
  | nil => simp [insertA]
  | cons p t ih =>
    by_cases h : k = p.1
    · simp [insertA, h]
    · simp [insertA, h, ih]

lemma insertA_of_not_mem {α : Type} {k : Nat} (v : α) {m : List (Nat × α)}
    (h : k ∉ keysA m) : insertA k v m = m ++ [(k, v)] := by
  induction m with
  | nil => rfl
  | cons p t ih =>
    have h1 : k ≠ p.1 := fun he => h (by simp [keysA, he])
    have h2 : k ∉ keysA t := fun hm => h (by
      rcases mem_keysA_iff.mp hm with ⟨w, hw⟩
      exact mem_keysA_iff.mpr ⟨w, by simp [hw]⟩)
    simp [insertA, h1, ih h2]

lemma eraseA_append_self {α : Type} {k : Nat} (v : α) {m : List (Nat × α)}
    (h : k ∉ keysA m) : eraseA k (m ++ [(k, v)]) = m := by
  induction m with
  | nil => simp [eraseA]
  | cons p t ih =>
    have h1 : k ≠ p.1 := fun he => h (by simp [keysA, he])
    have h2 : k ∉ keysA t := fun hm => h (by
      rcases mem_keysA_iff.mp hm with ⟨w, hw⟩
      exact mem_keysA_iff.mpr ⟨w, by simp [hw]⟩)
    simp [eraseA, h1, ih h2]

lemma not_mem_of_lookupA_none {α : Type} {k : Nat} {m : List (Nat × α)}
    (h : lookupA k m = none) : k ∉ keysA m := by
  induction m with
  | nil => simp [keysA]
  | cons p t ih =>
    unfold lookupA at h
    by_cases h2 : k = p.1
    · rw [if_pos h2] at h
      cases h
    · rw [if_neg h2] at h
      intro hm
      rcases mem_keysA_iff.mp hm with ⟨w, hw⟩
      rcases List.mem_cons.mp hw with h3 | h3
      · exact h2 (congrArg Prod.fst h3)
      · exact ih h (mem_keysA_iff.mpr ⟨w, h3⟩)

lemma eraseA_of_lookupA_none {α : Type} {k : Nat} {m : List (Nat × α)}
    (h : lookupA k m = none) : eraseA k m = m := by
  induction m with
  | nil => rfl
  | cons p t ih =>
    unfold lookupA at h
    by_cases h2 : k = p.1
    · rw [if_pos h2] at h
      cases h
    · rw [if_neg h2] at h
      simp [eraseA, h2, ih h]

lemma mem_of_lookupA {α : Type} {k : Nat} {v : α} {m : List (Nat × α)}
    (h : lookupA k m = some v) : (k, v) ∈ m := by
  induction m with
  | nil => simp [lookupA] at h
  | cons p t ih =>
    unfold lookupA at h
    by_cases h2 : k = p.1
    · rw [if_pos h2] at h
      cases p with
      | mk k1 v1 =>
        simp only at h2
        subst h2
        simp only [Option.some.injEq] at h
        subst h
        simp
    · rw [if_neg h2] at h
      exact List.mem_cons_of_mem _ (ih h)

lemma lookupA_of_eraseA_nil {α : Type} {k k' : Nat} {m : List (Nat × α)}
    (h : eraseA k m = []) (h2 : k' ≠ k) : lookupA k' m = none := by
  cases m with
  | nil => rfl
  | cons p t =>
    unfold eraseA at h
    by_cases h3 : k = p.1
    · rw [if_pos h3] at h
      subst h
      unfold lookupA
      rw [if_neg (fun he => h2 (he.trans h3.symm))]
      rfl
    · rw [if_neg h3] at h
      cases h

/-- Type-erased handlers are opaque; they are modelled by numeric codes. -/
abbrev Handler := Nat

/-- The EventBus state: next_handler_id_, the global registry event_handlers_
(event type to handler id to handler) and the targeted registry
targeted_handlers_ (event type to subject id to handler id to handler). Event
types and subject ids are modelled by numeric codes. -/
structure Bus where
  nextId : Nat
  global : List (Nat × List (Nat × Handler))
  targeted : List (Nat × List (Nat × List (Nat × Handler)))
deriving DecidableEq, Repr

/-- EventBus::Subscribe: handler_id = next_handler_id_++;
event_handlers_[type_id][handler_id] = handler. Returns the new bus and the id
stored in the returned EventHandle. -/
def subscribe (b : Bus) (ty : Nat) (h : Handler) : Bus × Nat :=
  ({ b with
      nextId := b.nextId + 1,
      global := insertA ty (insertA b.nextId h ((lookupA ty b.global).getD [])) b.global },
    b.nextId)

/-- EventBus::Unsubscribe(event_type, handler_id): find the event's inner map,
erase the handler id from it, and erase the event's entry entirely when the
inner map became empty. -/
def unsubscribe (b : Bus) (ty hid : Nat) : Bus :=
  match lookupA ty b.global with
  | none => b
  | some inner =>
    { b with
        global :=
          if (eraseA hid inner).isEmpty then eraseA ty b.global
          else insertA ty (eraseA hid inner) b.global }

/-- EventBus::UnsubscribeTargeted(event_type, target, handler_id): find the
event's subject map and the target's inner map, erase the handler id, and erase
each enclosing map that became empty. -/
def unsubscribeTargeted (b : Bus) (ty subj hid : Nat) : Bus :=
  match lookupA ty b.targeted with
  | none => b
  | some subjMap =>
    match lookupA subj subjMap with
    | none => b
    | some inner =>
      { b with
          targeted :=
            if (if (eraseA hid inner).isEmpty then eraseA subj subjMap
                else insertA subj (eraseA hid inner) subjMap).isEmpty then
              eraseA ty b.targeted
            else
              insertA ty
                (if (eraseA hid inner).isEmpty then eraseA subj subjMap
                 else insertA subj (eraseA hid inner) subjMap)
                b.targeted }

/-- The handler stored in the global registry under an event type and handler
id, if any. -/
def lookup2 (b : Bus) (ty hid : Nat) : Option Handler :=
  match lookupA ty b.global with
  | none => none
  | some inner => lookupA hid inner

/-- Reachable-state invariant of the global registry maintained by the bus:
event-type keys are distinct, every stored inner map is non-empty (empty inner
maps are erased eagerly) with distinct handler-id keys, and every stored handler
id was minted before next_handler_id_. -/
def wfBus (b : Bus) : Prop :=
  (keysA b.global).Nodup ∧
  ∀ p ∈ b.global, p.2 ≠ [] ∧ (keysA p.2).Nodup ∧ ∀ q ∈ p.2, q.1 < b.nextId

instance : DecidablePred wfBus := by
  intro b
  unfold wfBus
  infer_instance

lemma unsubscribe_of_lookup {b : Bus} {ty hid : Nat} {inner : List (Nat × Handler)}
    (h : lookupA ty b.global = some inner) :
    unsubscribe b ty hid =
      { b with
          global :=
            if (eraseA hid inner).isEmpty then eraseA ty b.global
            else insertA ty (eraseA hid inner) b.global } := by
  unfold unsubscribe
  rw [h]

lemma unsubscribe_of_lookup_none {b : Bus} {ty hid : Nat}
    (h : lookupA ty b.global = none) : unsubscribe b ty hid = b := by
  unfold unsubscribe
  rw [h]

lemma lookup2_of_lookup {b : Bus} {ty hid : Nat} {inner : List (Nat × Handler)}
    (h : lookupA ty b.global = some inner) : lookup2 b ty hid = lookupA hid inner := by
  unfold lookup2
  rw [h]

lemma lookup2_of_lookup_none {b : Bus} {ty hid : Nat}
    (h : lookupA ty b.global = none) : lookup2 b ty hid = none := by
  unfold lookup2
  rw [h]

/-- Counterexample to claim C7 as stated: on the empty bus, Subscribe followed by
Unsubscribe through the returned handle does not restore the bus state, because
next_handler_id_ has advanced from 0 to 1 (handler ids are never reused). -/
theorem C7_counterexample :
    unsubscribe (subscribe ⟨0, [], []⟩ 5 9).1 5 (subscribe ⟨0, [], []⟩ 5 9).2 ≠ ⟨0, [], []⟩ ∧
    (unsubscribe (subscribe ⟨0, [], []⟩ 5 9).1 5 (subscribe ⟨0, [], []⟩ 5 9).2).nextId = 1 := by
  decide

/-- Claim C7 (amended): for every well-formed bus state, Subscribe for an event
type followed by Unsubscribe via the returned handle restores both handler
registries exactly (including eager erasure of the per-event inner map when it
becomes empty), while the handler-id counter advances by one and is not
restored. -/
theorem C7_subscribe_unsubscribe (b : Bus) (ty h : Nat) (hwf : wfBus b) :
    (unsubscribe (subscribe b ty h).1 ty (subscribe b ty h).2).global = b.global ∧
    (unsubscribe (subscribe b ty h).1 ty (subscribe b ty h).2).targeted = b.targeted ∧
    (unsubscribe (subscribe b ty h).1 ty (subscribe b ty h).2).nextId = b.nextId + 1 := by
  cases hl : lookupA ty b.global with
  | some inner =>
    have hmem : (ty, inner) ∈ b.global := mem_of_lookupA hl
    have hfresh : b.nextId ∉ keysA inner := by
      intro hm
      rcases mem_keysA_iff.mp hm with ⟨w, hw⟩
      exact absurd ((hwf.2 _ hmem).2.2 _ hw) (lt_irrefl b.nextId)
    have hne : inner ≠ [] := (hwf.2 _ hmem).1
    have hins : insertA b.nextId h inner = inner ++ [(b.nextId, h)] :=
      insertA_of_not_mem h hfresh
    have hers : eraseA b.nextId (insertA b.nextId h inner) = inner := by
      rw [hins]
      exact eraseA_append_self h hfresh
    have hlook : lookupA ty (subscribe b ty h).1.global
        = some (insertA b.nextId h inner) := by
      show lookupA ty (insertA ty (insertA b.nextId h ((lookupA ty b.global).getD [])) b.global)
        = _
      rw [hl]
      exact lookupA_insertA_self _ _ _
    rw [unsubscribe_of_lookup hlook]
    have hsnd : (subscribe b ty h).2 = b.nextId := rfl
    simp only [hsnd, hers]
    have hemp : inner.isEmpty = false := by
      cases inner with
      | nil => exact absurd rfl hne
      | cons a t => rfl
    rw [hemp]
    simp only [Bool.false_eq_true, if_false]
    refine ⟨?_, rfl, rfl⟩
    show insertA ty inner (insertA ty (insertA b.nextId h ((lookupA ty b.global).getD [])) b.global)
      = b.global
    rw [insertA_insertA]
    exact insertA_of_lookup hl
  | none =>
    have hnm : ty ∉ keysA b.global := not_mem_of_lookupA_none hl
    have hg1 : (subscribe b ty h).1.global = b.global ++ [(ty, [(b.nextId, h)])] := by
      show insertA ty (insertA b.nextId h ((lookupA ty b.global).getD [])) b.global = _
      rw [hl]
      exact insertA_of_not_mem _ hnm
    have hlook : lookupA ty (subscribe b ty h).1.global = some [(b.nextId, h)] := by
      show lookupA ty (insertA ty (insertA b.nextId h ((lookupA ty b.global).getD [])) b.global)
        = _
      rw [hl]
      exact lookupA_insertA_self _ _ _
    rw [unsubscribe_of_lookup hlook]
    have hsnd : (subscribe b ty h).2 = b.nextId := rfl
    have hers : eraseA b.nextId [(b.nextId, h)] = [] := by
      simp [eraseA]
    simp only [hsnd, hers, List.isEmpty_nil, if_true]
    refine ⟨?_, rfl, rfl⟩
    show eraseA ty (subscribe b ty h).1.global = b.global
    rw [hg1]
    exact eraseA_append_self _ hnm

/-- Witness for C7 (amended): a well-formed bus already holding handler 0 for
event type 5 and handler 1 for event type 6; subscribing handler code 9 to type
5 and unsubscribing it restores both registries while the counter moves 2 to 3. -/
theorem C7_subscribe_unsubscribe_witness :
    wfBus ⟨2, [(5, [(0, 11)]), (6, [(1, 12)])], []⟩ ∧
    (unsubscribe (subscribe ⟨2, [(5, [(0, 11)]), (6, [(1, 12)])], []⟩ 5 9).1 5
        (subscribe ⟨2, [(5, [(0, 11)]), (6, [(1, 12)])], []⟩ 5 9).2).global
      = [(5, [(0, 11)]), (6, [(1, 12)])] ∧
    (unsubscribe (subscribe ⟨2, [(5, [(0, 11)]), (6, [(1, 12)])], []⟩ 5 9).1 5
        (subscribe ⟨2, [(5, [(0, 11)]), (6, [(1, 12)])], []⟩ 5 9).2).targeted = [] ∧
    (unsubscribe (subscribe ⟨2, [(5, [(0, 11)]), (6, [(1, 12)])], []⟩ 5 9).1 5
        (subscribe ⟨2, [(5, [(0, 11)]), (6, [(1, 12)])], []⟩ 5 9).2).nextId = 2 + 1 := by
  have h := C7_subscribe_unsubscribe ⟨2, [(5, [(0, 11)]), (6, [(1, 12)])], []⟩ 5 9 (by decide)
  exact ⟨by decide, h.1, h.2.1, h.2.2⟩

/-- Claim C10: on every well-formed bus, Unsubscribe(event_type, handler_id)
removes at most the single handler entry under that key: afterwards nothing is
stored under (event_type, handler_id); every other (event type, handler id)
entry of the global registry is unchanged; the targeted registry and the id
counter are untouched; when no such entry exists the bus is left entirely
unchanged; events other than event_type keep their exact inner maps; and the
inner map of event_type is erased exactly when removing handler_id emptied it,
otherwise it survives with just that entry erased. -/
theorem C10_unsubscribe_frame (b : Bus) (ty hid : Nat) (hwf : wfBus b) :
    lookup2 (unsubscribe b ty hid) ty hid = none ∧
    (∀ ty2 hid2, ty2 ≠ ty ∨ hid2 ≠ hid →
      lookup2 (unsubscribe b ty hid) ty2 hid2 = lookup2 b ty2 hid2) ∧
    (unsubscribe b ty hid).targeted = b.targeted ∧
    (unsubscribe b ty hid).nextId = b.nextId ∧
    (lookup2 b ty hid = none → unsubscribe b ty hid = b) ∧
    (∀ ty2, ty2 ≠ ty →
      lookupA ty2 (unsubscribe b ty hid).global = lookupA ty2 b.global) ∧
    (∀ inner, lookupA ty b.global = some inner →
      lookupA ty (unsubscribe b ty hid).global =
        (if (eraseA hid inner).isEmpty then none else some (eraseA hid inner))) := by
  cases hl : lookupA ty b.global with
  | none =>
    rw [unsubscribe_of_lookup_none hl]
    refine ⟨lookup2_of_lookup_none hl, fun ty2 hid2 _ => rfl, rfl, rfl,
      fun _ => rfl, fun ty2 _ => rfl, fun inner hli => ?_⟩
    exact Option.noConfusion hli
  | some inner =>
    have hmem : (ty, inner) ∈ b.global := mem_of_lookupA hl
    have hnd : (keysA inner).Nodup := (hwf.2 _ hmem).2.1
    have hne : inner ≠ [] := (hwf.2 _ hmem).1
    rw [unsubscribe_of_lookup hl]
    by_cases hemp : (eraseA hid inner).isEmpty = true
    · rw [if_pos hemp]
      have hltyafter : lookupA ty (eraseA ty b.global) = none :=
        lookupA_eraseA_self hwf.1
      have hnil : eraseA hid inner = [] := by
        cases h2 : eraseA hid inner with
        | nil => rfl
        | cons a t => rw [h2] at hemp; cases hemp
      refine ⟨?_, ?_, rfl, rfl, ?_, ?_, ?_⟩
      · exact lookup2_of_lookup_none (b := { b with global := eraseA ty b.global }) hltyafter
      · intro ty2 hid2 hne2
        by_cases hty : ty2 = ty
        · subst hty
          rcases hne2 with h3 | h3
          · exact absurd rfl h3
          · rw [lookup2_of_lookup_none (b := { b with global := eraseA ty2 b.global }) hltyafter,
              lookup2_of_lookup hl]
            exact (lookupA_of_eraseA_nil hnil h3).symm
        · have heq : lookupA ty2 (eraseA ty b.global) = lookupA ty2 b.global :=
            lookupA_eraseA_other _ hty
          show lookup2 { b with global := eraseA ty b.global } ty2 hid2 = lookup2 b ty2 hid2
          unfold lookup2
          rw [heq]
      · intro h5
        exfalso
        rw [lookup2_of_lookup hl] at h5
        have hee : eraseA hid inner = inner := eraseA_of_lookupA_none h5
        exact hne (hee ▸ hnil)
      · intro ty2 hty
        exact lookupA_eraseA_other _ hty
      · intro inner2 hli
        have hii : inner = inner2 := Option.some.inj hli
        subst hii
        show lookupA ty (eraseA ty b.global) = _
        rw [if_pos hemp, hltyafter]
    · rw [if_neg hemp]
      have hlafter : lookupA ty (insertA ty (eraseA hid inner) b.global)
          = some (eraseA hid inner) := lookupA_insertA_self _ _ _
      refine ⟨?_, ?_, rfl, rfl, ?_, ?_, ?_⟩
      · rw [lookup2_of_lookup (b := { b with global := insertA ty (eraseA hid inner) b.global })
          hlafter]
        exact lookupA_eraseA_self hnd
      · intro ty2 hid2 hne2
        by_cases hty : ty2 = ty
        · subst hty
          rcases hne2 with h3 | h3
          · exact absurd rfl h3
          · rw [lookup2_of_lookup (b := { b with global := insertA ty2 (eraseA hid inner) b.global })
              hlafter, lookup2_of_lookup hl]
            exact lookupA_eraseA_other _ h3
        · have heq : lookupA ty2 (insertA ty (eraseA hid inner) b.global) = lookupA ty2 b.global :=
            lookupA_insertA_other _ _ hty
          show lookup2 { b with global := insertA ty (eraseA hid inner) b.global } ty2 hid2
            = lookup2 b ty2 hid2
          unfold lookup2
          rw [heq]
      · intro h5
        rw [lookup2_of_lookup hl] at h5
        have heq : eraseA hid inner = inner := eraseA_of_lookupA_none h5
        rw [heq, insertA_of_lookup hl]
      · intro ty2 hty
        exact lookupA_insertA_other _ _ hty
      · intro inner2 hli
        have hii : inner = inner2 := Option.some.inj hli
        subst hii
        show lookupA ty (insertA ty (eraseA hid inner) b.global) = _
        rw [hlafter, if_neg hemp]

/-- Witness for C10 on a concrete well-formed bus holding two event types, one
with two handlers, and one targeted entry; Unsubscribe removes only handler 1 of
event type 5. -/
theorem C10_unsubscribe_frame_witness :
    wfBus ⟨3, [(5, [(0, 11), (1, 12)]), (6, [(2, 13)])], [(5, [(4, [(2, 14)])])]⟩ ∧
    lookup2 (unsubscribe ⟨3, [(5, [(0, 11), (1, 12)]), (6, [(2, 13)])],
        [(5, [(4, [(2, 14)])])]⟩ 5 1) 5 1 = none ∧
    lookup2 (unsubscribe ⟨3, [(5, [(0, 11), (1, 12)]), (6, [(2, 13)])],
        [(5, [(4, [(2, 14)])])]⟩ 5 1) 5 0 = lookup2 ⟨3, [(5, [(0, 11), (1, 12)]), (6, [(2, 13)])],
        [(5, [(4, [(2, 14)])])]⟩ 5 0 ∧
    (unsubscribe ⟨3, [(5, [(0, 11), (1, 12)]), (6, [(2, 13)])],
        [(5, [(4, [(2, 14)])])]⟩ 5 1).targeted = [(5, [(4, [(2, 14)])])] ∧
    (unsubscribe ⟨3, [(5, [(0, 11), (1, 12)]), (6, [(2, 13)])],
        [(5, [(4, [(2, 14)])])]⟩ 5 1).nextId = 3 := by
  have h := C10_unsubscribe_frame ⟨3, [(5, [(0, 11), (1, 12)]), (6, [(2, 13)])],
    [(5, [(4, [(2, 14)])])]⟩ 5 1 (by decide)
  exact ⟨by decide, h.1, h.2.1 5 0 (Or.inr (by decide)), h.2.2.1, h.2.2.2.1⟩

/-- A handler for a fixed event type E whose observable effect on the bus is the
list of handlers it subscribes (to the same event type) when invoked. -/
inductive RHandler where
  | mk : List RHandler → RHandler

/-- The handlers an RHandler subscribes when it runs. -/
def subsOf : RHandler → List RHandler
  | RHandler.mk l => l

/-- The slice of the bus relevant to one event type: next_handler_id_ and the
registered (handler id, handler) entries for that event type, in registration
order. -/
structure RBus where
  nextId : Nat
  handlers : List (Nat × RHandler)

/-- EventBus::Subscribe for the fixed event type: mint next_handler_id_++ and
store the handler under it. -/
def rsubscribe (b : RBus) (h : RHandler) : RBus :=
  ⟨b.nextId + 1, b.handlers ++ [(b.nextId, h)]⟩

/-- The bus after one handler invocation performed its subscriptions. -/
def runHandler (b : RBus) (p : Nat × RHandler) : RBus :=
  (subsOf p.2).foldl rsubscribe b

/-- EventBus::Emit for the fixed event type: snapshot the registered handlers
under the mutex, release it, then invoke each snapshotted handler in order (here
a handler's invocation subscribes its handlers, reentrantly, outside the lock).
Returns the ids of the handlers invoked by this Emit and the resulting bus. -/
def remit (b : RBus) : List Nat × RBus :=
  (b.handlers.map Prod.fst, b.handlers.foldl runHandler b)

lemma foldl_rsubscribe_mem : ∀ (hs : List RHandler) (bus : RBus) (p : Nat × RHandler),
    p ∈ bus.handlers → p ∈ (hs.foldl rsubscribe bus).handlers := by
  intro hs
  induction hs with
  | nil => intro bus p hp; exact hp
  | cons a t ih =>
    intro bus p hp
    exact ih _ p (by simp [rsubscribe, hp])

lemma foldl_rsubscribe_nextId : ∀ (hs : List RHandler) (bus : RBus),
    bus.nextId ≤ (hs.foldl rsubscribe bus).nextId := by
  intro hs
  induction hs with
  | nil => intro bus; exact le_refl _
  | cons a t ih =>
    intro bus
    exact le_trans (Nat.le_succ _) (ih (rsubscribe bus a))

lemma foldl_rsubscribe_subscribed : ∀ (hs : List RHandler) (bus : RBus) (h : RHandler),
    h ∈ hs → ∃ j, bus.nextId ≤ j ∧ (j, h) ∈ (hs.foldl rsubscribe bus).handlers := by
  intro hs
  induction hs with
  | nil => intro bus h hmem; cases hmem
  | cons a t ih =>
    intro bus h hmem
    rcases List.mem_cons.mp hmem with h1 | h1
    · subst h1
      exact ⟨bus.nextId, le_refl _,
        foldl_rsubscribe_mem t (rsubscribe bus h) _ (by simp [rsubscribe])⟩
    · rcases ih (rsubscribe bus a) h h1 with ⟨j, hj1, hj2⟩
      exact ⟨j, le_trans (Nat.le_succ _) hj1, hj2⟩

lemma foldl_runHandler_mem : ∀ (snap : List (Nat × RHandler)) (bus : RBus)
    (p : Nat × RHandler), p ∈ bus.handlers → p ∈ (snap.foldl runHandler bus).handlers := by
  intro snap
  induction snap with
  | nil => intro bus p hp; exact hp
  | cons a t ih =>
    intro bus p hp
    exact ih _ p (foldl_rsubscribe_mem _ _ _ hp)

lemma foldl_runHandler_nextId : ∀ (snap : List (Nat × RHandler)) (bus : RBus),
    bus.nextId ≤ (snap.foldl runHandler bus).nextId := by
  intro snap
  induction snap with
  | nil => intro bus; exact le_refl _
  | cons a t ih =>
    intro bus
    exact le_trans (foldl_rsubscribe_nextId _ _) (ih (runHandler bus a))

lemma foldl_runHandler_subscribed : ∀ (snap : List (Nat × RHandler)) (bus : RBus)
    (i : Nat) (h h2 : RHandler), (i, h) ∈ snap → h2 ∈ subsOf h →
    ∃ j, bus.nextId ≤ j ∧ (j, h2) ∈ (snap.foldl runHandler bus).handlers := by
  intro snap
  induction snap with
  | nil => intro bus i h h2 hmem; cases hmem
  | cons a t ih =>
    intro bus i h h2 hmem hsub
    rcases List.mem_cons.mp hmem with h1 | h1
    · subst h1
      rcases foldl_rsubscribe_subscribed (subsOf h) bus h2 hsub with ⟨j, hj1, hj2⟩
      exact ⟨j, hj1, foldl_runHandler_mem t (runHandler bus (i, h)) _ hj2⟩
    · rcases ih (runHandler bus a) i h h2 h1 hsub with ⟨j, hj1, hj2⟩
      exact ⟨j, le_trans (foldl_rsubscribe_nextId _ _) hj1, hj2⟩

/-- Claim C8: the handlers an Emit invokes are exactly the snapshot taken at its
start; a handler subscribed reentrantly, while some snapshotted handler runs
under that Emit, is given a fresh id not among the invoked ones (so it is not
invoked by this Emit) and is among the handlers the next Emit of the same event
invokes. -/
theorem C8_emit_snapshot (b : RBus) (i : Nat) (h h2 : RHandler)
    (hwf : ∀ p ∈ b.handlers, p.1 < b.nextId)
    (hmem : (i, h) ∈ b.handlers) (hsub : h2 ∈ subsOf h) :
    (remit b).1 = b.handlers.map Prod.fst ∧
    ∃ j, (j, h2) ∈ (remit b).2.handlers ∧ j ∉ (remit b).1 ∧ j ∈ (remit (remit b).2).1 := by
  refine ⟨rfl, ?_⟩
  rcases foldl_runHandler_subscribed b.handlers b i h h2 hmem hsub with ⟨j, hj1, hj2⟩
  refine ⟨j, hj2, ?_, ?_⟩
  · intro hin
    rcases List.mem_map.mp hin with ⟨p, hp, he⟩
    have := hwf p hp
    omega
  · exact List.mem_map.mpr ⟨(j, h2), hj2, rfl⟩

/-- Witness for C8: a bus holding one handler H1 (id 0) that reentrantly
subscribes a handler H2 when invoked. -/
theorem C8_emit_snapshot_witness :
    (remit ⟨1, [(0, RHandler.mk [RHandler.mk []])]⟩).1 = [0] ∧
    ∃ j, (j, RHandler.mk []) ∈ (remit ⟨1, [(0, RHandler.mk [RHandler.mk []])]⟩).2.handlers ∧
      j ∉ (remit ⟨1, [(0, RHandler.mk [RHandler.mk []])]⟩).1 ∧
      j ∈ (remit (remit ⟨1, [(0, RHandler.mk [RHandler.mk []])]⟩).2).1 := by
  have h := C8_emit_snapshot ⟨1, [(0, RHandler.mk [RHandler.mk []])]⟩ 0
    (RHandler.mk [RHandler.mk []]) (RHandler.mk [])
    (by intro p hp; rcases List.mem_singleton.mp hp with h1; rw [h1]; exact Nat.lt_succ_self 0)
    (List.mem_singleton.mpr rfl)
    (List.mem_singleton.mpr rfl)
  exact ⟨h.1, h.2⟩

end EventSystem
